import Mathlib

/-!
Shallow embedding of the MarkdownEditor search, highlight and scroll-sync
subsystems (`src/app/services/search.service.ts`,
`src/app/components/markdown-editor/markdown-editor.component.ts`,
`src/app/components/markdown-preview/markdown-preview.component.ts`,
`src/app/services/scroll-sync.service.ts`).

Strings are modelled as `List Char`; JavaScript's
`String.prototype.toLowerCase` is modelled character-wise by `Char.toLower`
(the sources only ever lower-case both sides of a comparison, so the
character-wise model is adequate), and scroll geometry is modelled over `ℚ`.
-/

/-- JS `s.toLowerCase()`, modelled character-wise. -/
def toLowerStr (s : List Char) : List Char := s.map Char.toLower

/-- JS `s.substring(a, b)` for `a ≤ b` (the only way the sources call it). -/
def strSub (s : List Char) (a b : Nat) : List Char := (s.drop a).take (b - a)

/-- Relative index of the first occurrence of `q` in `s`: the leftmost
position whose suffix starts with `q`.  This is how both
`String.prototype.indexOf` and the `g`-flag exec scan of a compiled
escaped-literal pattern locate a match. -/
def occIn (q : List Char) : List Char → Option Nat
  | [] => if q.isPrefixOf ([] : List Char) then some 0 else none
  | c :: rest => if q.isPrefixOf (c :: rest) then some 0 else (occIn q rest).map (· + 1)

/-- First occurrence of `q` in `t` at a position `≥ i` (`none` when `i` is
past the end of `t`, as for a regex whose `lastIndex` exceeds the subject
length). -/
def occFrom (q t : List Char) (i : Nat) : Option Nat :=
  if t.length < i then none else (occIn q (t.drop i)).map (· + i)

/-- `SearchResult` of `search.interface.ts`.  `end` is a Lean keyword, so
that field is named `endPos`. -/
structure SearchResult where
  start : Nat
  endPos : Nat
  text : List Char
  context : List Char
deriving DecidableEq

/-- `SearchService.getContext`: 50 characters of context on both sides,
clamped to the buffer.  `Nat` subtraction models `Math.max(0, start - 50)`. -/
def getContext (content : List Char) (start endPos : Nat) : List Char :=
  let beforeStart := start - 50
  let afterEnd := min content.length (endPos + 50)
  strSub content beforeStart start ++ strSub content start endPos ++
    strSub content endPos afterEnd

/-- The `regex.exec` loop of `SearchService.searchInContent`, specialised to
the compiled escaped-literal pattern of the `useRegex = false`,
`wholeWord = false` branch: `escapeRegExp` escapes every metacharacter of
`searchQuery` (`. * + ? ^ $ ( ) | [ ] \` and the two curly brackets), so the
compiled pattern matches exactly the literal `searchQuery`, and each
`exec` call returns its leftmost occurrence at or after `regex.lastIndex`,
then advances `lastIndex` past it.  The zero-width guard
(`if (match.index === regex.lastIndex) regex.lastIndex++`) is kept verbatim.
`fuel` bounds the number of iterations; the subject length plus one always
suffices, so the top-level wrapper `execSearchLit` below is exact. -/
def execLoopLit (searchQuery searchText content : List Char) :
    Nat → Nat → List SearchResult
  | 0, _ => []
  | fuel + 1, lastIndex =>
    match occFrom searchQuery searchText lastIndex with
    | none => []
    | some j =>
      { start := j, endPos := j + searchQuery.length,
        text := strSub content j (j + searchQuery.length),
        context := getContext content j (j + searchQuery.length) } ::
        execLoopLit searchQuery searchText content fuel
          (if j + searchQuery.length = j then j + searchQuery.length + 1
           else j + searchQuery.length)

/-- The escaped-literal default branch of `searchInContent` run from
position 0. -/
def execSearchLit (searchQuery searchText content : List Char) : List SearchResult :=
  execLoopLit searchQuery searchText content (searchText.length + 1) 0

/-- Loop of `SearchService.simpleSearch`: repeated `indexOf`, advancing by
the query length after each hit.  (On an empty query the JS loop would not
terminate; that case is unreachable because `searchInContent` returns early
on empty queries, and the fuel merely truncates it here.) -/
def simpleSearchLoop (query searchText originalContent : List Char) :
    Nat → Nat → List SearchResult
  | 0, _ => []
  | fuel + 1, index =>
    match occFrom query searchText index with
    | none => []
    | some j =>
      { start := j, endPos := j + query.length,
        text := strSub originalContent j (j + query.length),
        context := getContext originalContent j (j + query.length) } ::
        simpleSearchLoop query searchText originalContent fuel (j + query.length)

/-- `SearchService.simpleSearch`. -/
def simpleSearch (query searchText originalContent : List Char) : List SearchResult :=
  simpleSearchLoop query searchText originalContent (searchText.length + 1) 0

/-- JS regex `\w`: ASCII letters, digits and underscore. -/
def isWordChar (c : Char) : Bool := c.isAlphanum || c = '_'

/-- Whether position `p` of `t` holds a word character (out of range counts
as a non-word position). -/
def wordAt (t : List Char) (p : Nat) : Bool :=
  match t.get? p with
  | some c => isWordChar c
  | none => false

/-- JS regex `\b` holds at position `p`: exactly one of the neighbouring
positions holds a word character. -/
def boundaryAt (t : List Char) (p : Nat) : Bool :=
  (if p = 0 then false else wordAt t (p - 1)) != wordAt t p

/-- Scan of the compiled pattern `\b searchQuery \b` (the `wholeWord = true`
branch, whose `escapeRegExp` call again makes the inner pattern literal):
leftmost position `≥ j` where the literal occurs with a word boundary on both
sides.  The first argument of the match is `t.drop j` and only drives the
structural recursion. -/
def wwScan (q t : List Char) : List Char → Nat → Option Nat
  | [], j => if q.isPrefixOf ([] : List Char) && boundaryAt t j then some j else none
  | _ :: rest, j =>
    if boundaryAt t j && q.isPrefixOf (t.drop j) && boundaryAt t (j + q.length) then some j
    else wwScan q t rest (j + 1)

/-- First whole-word occurrence of `q` in `t` at a position `≥ i`. -/
def wwOccFrom (q t : List Char) (i : Nat) : Option Nat :=
  if t.length < i then none else wwScan q t (t.drop i) i

/-- The `regex.exec` loop of `searchInContent` for the `wholeWord = true`
pattern. -/
def wwLoop (searchQuery searchText content : List Char) :
    Nat → Nat → List SearchResult
  | 0, _ => []
  | fuel + 1, lastIndex =>
    match wwOccFrom searchQuery searchText lastIndex with
    | none => []
    | some j =>
      { start := j, endPos := j + searchQuery.length,
        text := strSub content j (j + searchQuery.length),
        context := getContext content j (j + searchQuery.length) } ::
        wwLoop searchQuery searchText content fuel
          (if j + searchQuery.length = j then j + searchQuery.length + 1
           else j + searchQuery.length)

/-- The whole-word branch of `searchInContent` run from position 0. -/
def wholeWordSearch (searchQuery searchText content : List Char) : List SearchResult :=
  wwLoop searchQuery searchText content (searchText.length + 1) 0

/-- `SearchOptions` of `search.interface.ts` (the service always supplies
all three fields). -/
structure SearchOptions where
  caseSensitive : Bool
  wholeWord : Bool
  useRegex : Bool
deriving DecidableEq

/-- The service's initial `searchOptions`. -/
def defaultSearchOptions : SearchOptions :=
  { caseSensitive := false, wholeWord := false, useRegex := false }

/-- `SearchService.searchInContent`.  The general regular-expression engine
(`useRegex = true` with a pattern that compiles) is external to this
development; it is abstracted by `regexCompiles` (whether
`new RegExp(searchQuery, flags)` succeeds — for the escaped patterns of the
other branches compilation always succeeds, so the `catch` is reachable only
from the `useRegex` branch) and `regexEngine` (the results its exec loop
would produce).  No claim depends on the compiled-pattern branch; every
other branch is modelled concretely. -/
def searchInContent (opts : SearchOptions) (regexCompiles : List Char → Bool)
    (regexEngine : List Char → List Char → List Char → List SearchResult)
    (query content : List Char) : List SearchResult :=
  if query = [] ∨ content = [] then []
  else
    let searchText := if opts.caseSensitive then content else toLowerStr content
    let searchQuery := if opts.caseSensitive then query else toLowerStr query
    if opts.useRegex then
      if regexCompiles searchQuery then regexEngine searchQuery searchText content
      else simpleSearch searchQuery searchText content
    else if opts.wholeWord then
      wholeWordSearch searchQuery searchText content
    else
      execSearchLit searchQuery searchText content

/-- Comparison baseline for the refinement claims, following the spec's
words: "plain literal substring search" over the same case-folded subject
and query, with the same empty-input guard as the finder. -/
def literalSubstringSearch (opts : SearchOptions) (query content : List Char) :
    List SearchResult :=
  if query = [] ∨ content = [] then []
  else
    simpleSearch (if opts.caseSensitive then query else toLowerStr query)
      (if opts.caseSensitive then content else toLowerStr content) content

/-- Placeholder regex-engine parameters for claims that never reach the
compiled-pattern branch. -/
def noRegexCompile : List Char → Bool := fun _ => false

/-- See `noRegexCompile`. -/
def noRegexEngine : List Char → List Char → List Char → List SearchResult :=
  fun _ _ _ => []

/-- `SearchMode` of `search.interface.ts`. -/
inductive SearchMode
  | editor
  | preview
  | split
deriving DecidableEq

/-- `SearchState` of `search.interface.ts`. -/
structure SearchState where
  query : List Char
  isActive : Bool
  results : List SearchResult
  currentIndex : Nat
  totalMatches : Nat
  searchMode : SearchMode
deriving DecidableEq

/-- `SearchTarget` of `search.interface.ts` (the optional `element` plays no
role in the service). -/
inductive TargetKind
  | editor
  | preview
deriving DecidableEq

/-- See `TargetKind`. -/
structure SearchTarget where
  type : TargetKind
  content : List Char
deriving DecidableEq

/-- The state held by the service's `BehaviorSubject` initially. -/
def initialSearchState : SearchState :=
  { query := [], isActive := false, results := [], currentIndex := 0,
    totalMatches := 0, searchMode := SearchMode.editor }

/-- `SearchService.openSearch`. -/
def openSearch (s : SearchState) : SearchState := { s with isActive := true }

/-- `SearchService.closeSearch` (it also pushes an empty string onto the
query stream, which does not touch the state fields modelled here). -/
def closeSearch (s : SearchState) : SearchState :=
  { query := [], isActive := false, results := [], currentIndex := 0,
    totalMatches := 0, searchMode := s.searchMode }

/-- `SearchService.setSearchMode`. -/
def setSearchMode (m : SearchMode) (s : SearchState) : SearchState :=
  { s with searchMode := m }

/-- The synchronous part of `SearchService.updateSearchQuery` (the push onto
the debounced stream is modelled by `debouncedQueryUpdate` below). -/
def updateSearchQuery (q : List Char) (s : SearchState) : SearchState :=
  { s with query := q, currentIndex := 0 }

/-- The constructor's subscription to the debounced query stream.  Its body
is exactly "Just update the query in state, don't perform search here". -/
def debouncedQueryUpdate (q : List Char) (s : SearchState) : SearchState :=
  { s with query := q }

/-- `SearchService.clearResults`. -/
def clearResults (s : SearchState) : SearchState :=
  { s with results := [], totalMatches := 0, currentIndex := 0 }

/-- `SearchService.performSearch`, parametrised like `searchInContent` by
the abstract regex engine. -/
def performSearch (opts : SearchOptions) (regexCompiles : List Char → Bool)
    (regexEngine : List Char → List Char → List Char → List SearchResult)
    (targets : List SearchTarget) (s : SearchState) : SearchState :=
  if s.query = [] ∨ targets = [] then clearResults s
  else
    let allResults :=
      targets.flatMap fun t => searchInContent opts regexCompiles regexEngine s.query t.content
    { s with results := allResults, totalMatches := allResults.length,
             currentIndex := if 0 < allResults.length then 1 else 0 }

/-- `SearchService.navigateNext`. -/
def navigateNext (s : SearchState) : SearchState :=
  if s.totalMatches = 0 then s
  else { s with currentIndex := if s.currentIndex < s.totalMatches then s.currentIndex + 1 else 1 }

/-- `SearchService.navigatePrevious`. -/
def navigatePrevious (s : SearchState) : SearchState :=
  if s.totalMatches = 0 then s
  else { s with currentIndex := if 1 < s.currentIndex then s.currentIndex - 1 else s.totalMatches }

/-- `SearchService.getCurrentResult`: `results[currentIndex - 1] || null`
where an out-of-range access yields `undefined` and hence `null` (search
results are objects, so the `|| null` never fires on an in-range element). -/
def getCurrentResult (s : SearchState) : Option SearchResult :=
  if s.currentIndex = 0 ∨ s.results.length = 0 then none
  else s.results.get? (s.currentIndex - 1)

/-- The `SearchState` invariants named by the spec. -/
def stateInv (s : SearchState) : Prop :=
  s.totalMatches = s.results.length ∧
  (s.currentIndex = 0 ∨ (1 ≤ s.currentIndex ∧ s.currentIndex ≤ s.totalMatches)) ∧
  (s.isActive = false → s.results = [] ∧ s.currentIndex = 0)

instance (s : SearchState) : Decidable (stateInv s) := by
  unfold stateInv; infer_instance

/-- Witness for `getCurrentResult_total_spec`. -/
def sampleResult : SearchResult :=
  { start := 0, endPos := 1, text := "a".toList, context := "a".toList }

/-- A state with one result and the cursor on it. -/
def sampleActiveState : SearchState :=
  { query := "a".toList, isActive := true, results := [sampleResult],
    currentIndex := 1, totalMatches := 1, searchMode := SearchMode.editor }

/-- A state reachable through the store's own operations
(`updateSearchQuery "a"` from the initial state) that is inactive but holds
a non-empty query. -/
def inactiveQueryState : SearchState :=
  { query := "a".toList, isActive := false, results := [], currentIndex := 0,
    totalMatches := 0, searchMode := SearchMode.editor }

/-- A state waiting for its debounce window: active, query already set
synchronously, no results yet. -/
def pendingQueryState : SearchState :=
  { query := "a".toList, isActive := true, results := [], currentIndex := 0,
    totalMatches := 0, searchMode := SearchMode.editor }

/-! ### Scroll synchronization (`scroll-sync.service.ts`) -/

/-- A scrollable pane: the DOM triple read and written by the service.
Geometry is modelled over `ℚ`. -/
structure Pane where
  scrollTop : ℚ
  scrollHeight : ℚ
  clientHeight : ℚ
deriving DecidableEq

/-- The service state while attached: the guard flag and the two panes.
(The detached states, with null elements, make every handler a no-op and
play no part in the attached-mode claims.) -/
structure SyncState where
  isSyncing : Bool
  editorElement : Pane
  previewElement : Pane
deriving DecidableEq

/-- `ScrollSyncService.calculateScrollPercentage`. -/
def calculateScrollPercentage (element : Pane) : ℚ :=
  element.scrollTop / max 1 (element.scrollHeight - element.clientHeight)

/-- `ScrollSyncService.applyScrollPercentage`. -/
def applyScrollPercentage (element : Pane) (percentage : ℚ) : Pane :=
  { element with
      scrollTop := percentage * max 0 (element.scrollHeight - element.clientHeight) }

/-- `ScrollSyncService.syncFromEditor`.  Returns the new state together with
the number of mirrored writes performed (0 when the re-entrancy guard is
set).  The guard stays set until the `requestAnimationFrame` callback
(`animationFrameClear`) runs. -/
def syncFromEditor (s : SyncState) : SyncState × Nat :=
  if s.isSyncing then (s, 0)
  else
    ({ s with
        isSyncing := true
        previewElement := applyScrollPercentage s.previewElement
          (calculateScrollPercentage s.editorElement) }, 1)

/-- `ScrollSyncService.syncFromPreview`. -/
def syncFromPreview (s : SyncState) : SyncState × Nat :=
  if s.isSyncing then (s, 0)
  else
    ({ s with
        isSyncing := true
        editorElement := applyScrollPercentage s.editorElement
          (calculateScrollPercentage s.previewElement) }, 1)

/-- A scroll event on the editor pane: the DOM moves the pane to `top` and
then the service's scroll listener runs. -/
def editorScrollEvent (s : SyncState) (top : ℚ) : SyncState × Nat :=
  syncFromEditor { s with editorElement := { s.editorElement with scrollTop := top } }

/-- A scroll event on the preview pane. -/
def previewScrollEvent (s : SyncState) (top : ℚ) : SyncState × Nat :=
  syncFromPreview { s with previewElement := { s.previewElement with scrollTop := top } }

/-- The `requestAnimationFrame` callback that clears the guard. -/
def animationFrameClear (s : SyncState) : SyncState := { s with isSyncing := false }

/-- An attached pair of panes with the guard clear. -/
def sampleSyncState : SyncState :=
  { isSyncing := false,
    editorElement := { scrollTop := 0, scrollHeight := 200, clientHeight := 100 },
    previewElement := { scrollTop := 0, scrollHeight := 300, clientHeight := 100 } }

/-- Panes for the C7 counterexample: the editor is scrollable
(`200 − 100 = 100`) and sits at the bottom (percentage 1); the preview has
`contentExtent = viewportExtent` (allowed by the claim's
`contentExtent ≥ viewportExtent`). -/
def stuckPreviewSync : SyncState :=
  { isSyncing := false,
    editorElement := { scrollTop := 100, scrollHeight := 200, clientHeight := 100 },
    previewElement := { scrollTop := 0, scrollHeight := 100, clientHeight := 100 } }

/-! ### Buffer highlighting (`markdown-editor.component.ts`) -/

/-- A match as stored by the editor component (`{ start, end }`). -/
structure EditorMatch where
  start : Nat
  endPos : Nat
deriving DecidableEq

/-- `MarkdownEditorComponent.escapeHtml`: a detached div's
`textContent` / `innerHTML` round trip, which escapes ampersands and angle
brackets. -/
def escapeHtmlChar (c : Char) : List Char :=
  if c = '&' then "&amp;".toList
  else if c = '<' then "&lt;".toList
  else if c = '>' then "&gt;".toList
  else [c]

/-- See `escapeHtmlChar`. -/
def escapeHtml (s : List Char) : List Char := s.flatMap escapeHtmlChar

/-- The opening highlight marker `<span class="...">`. -/
def highlightOpenTag (cls : List Char) : List Char :=
  "<span class=\"".toList ++ cls ++ "\">".toList

/-- The closing highlight marker. -/
def highlightCloseTag : List Char := "</span>".toList

/-- Stable insertion into a list sorted by descending `start` (`m` goes
before the first element whose `start` is not above its own), modelling the
stable JS sort with comparator `(a, b) => b.start - a.start`. -/
def insertByStartDesc (m : EditorMatch) : List EditorMatch → List EditorMatch
  | [] => [m]
  | x :: xs => if x.start ≤ m.start then m :: x :: xs else x :: insertByStartDesc m xs

/-- `[...searchMatches].sort((a, b) => b.start - a.start)`. -/
def sortByStartDesc (ms : List EditorMatch) : List EditorMatch :=
  ms.foldr insertByStartDesc []

/-- The `sortedMatches.forEach` body of `updateBackdropHighlights`: splice
the wrapper around each match, from the end of the buffer backwards.
`total` is `sortedMatches.length`; `currentMatch` the component's 1-based
cursor, which picks the `current` marker class. -/
def spliceHighlights (currentMatch total : Nat) :
    List EditorMatch → Nat → List Char → List Char
  | [], _, acc => acc
  | m :: rest, index, acc =>
    spliceHighlights currentMatch total rest (index + 1)
      (acc.take m.start ++
        highlightOpenTag
          (if total - index = currentMatch then "search-highlight current".toList
           else "search-highlight".toList) ++
        escapeHtml (strSub acc m.start m.endPos) ++ highlightCloseTag ++
        acc.drop m.endPos)

/-- `MarkdownEditorComponent.updateBackdropHighlights`: the string assigned
to the backdrop's `innerHTML` (empty when there is no query or no match). -/
def updateBackdropHighlights (searchQuery content : List Char)
    (searchMatches : List EditorMatch) (currentMatch : Nat) : List Char :=
  if searchQuery = [] ∨ searchMatches = [] then []
  else spliceHighlights currentMatch searchMatches.length
    (sortByStartDesc searchMatches) 0 content

/-- Stripping the inserted highlight markers from the overlay: drop every
tag, i.e. every maximal segment from a `<` to the following `>`.  The flag
records whether the scanner is inside a tag. -/
def stripTagsAux : Bool → List Char → List Char
  | _, [] => []
  | true, c :: rest => if c = '>' then stripTagsAux false rest else stripTagsAux true rest
  | false, c :: rest => if c = '<' then stripTagsAux true rest else c :: stripTagsAux false rest

/-- See `stripTagsAux`. -/
def stripTags (s : List Char) : List Char := stripTagsAux false s

/-- Characters with no HTML meaning: not `&`, `<` or `>`. -/
def isHtmlPlain (c : Char) : Bool := !(c == '&' || c == '<' || c == '>')

/-! ### Tree highlighting (`markdown-preview.component.ts`) -/

mutual
/-- A rendered-markup tree node: a text leaf or an element with a tag, a
class attribute and children. -/
inductive DomNode where
  | text (s : List Char)
  | elem (tag cls : List Char) (children : DomForest)
/-- A sibling list of `DomNode`s (a separate inductive so that the mutual
recursors stay primitive). -/
inductive DomForest where
  | nil
  | cons (n : DomNode) (ns : DomForest)
end

/-- Concatenation of sibling lists. -/
def forestAppend : DomForest → DomForest → DomForest
  | .nil, g => g
  | .cons n ns, g => .cons n (forestAppend ns g)

mutual
/-- The DOM's `textContent`: all text leaves, in document order. -/
def textContent : DomNode → List Char
  | .text s => s
  | .elem _ _ cs => textContentForest cs
/-- See `textContent`. -/
def textContentForest : DomForest → List Char
  | .nil => []
  | .cons n ns => textContent n ++ textContentForest ns
end

/-- JS `String.prototype.includes`. -/
def containsSub (q s : List Char) : Bool := (occIn q s).isSome

/-- The splitting loop of `MarkdownPreviewComponent.highlightMatches` for
one text node: positions come from `indexOf` on the lower-cased text, the
fragments from the original text; each occurrence becomes a
`<mark class="search-highlight">` element holding the matched substring,
and any remaining tail is kept as a final text fragment.  (On an empty
query the JS loop would not terminate; that case is unreachable because
`highlightSearchResults` returns early on empty queries, and the fuel
merely truncates it here.) -/
def splitLoop (query text lowerQuery lowerText : List Char) :
    Nat → Nat → DomForest
  | 0, _ => .nil
  | fuel + 1, lastIndex =>
    match occFrom lowerQuery lowerText lastIndex with
    | none =>
      if lastIndex < text.length then .cons (.text (text.drop lastIndex)) .nil
      else .nil
    | some j =>
      forestAppend
        (if lastIndex < j then DomForest.cons (.text (strSub text lastIndex j)) .nil
         else .nil)
        (.cons
          (.elem "mark".toList "search-highlight".toList
            (.cons (.text (strSub text j (j + query.length))) .nil))
          (splitLoop query text lowerQuery lowerText fuel (j + query.length)))

/-- Splitting one text node into `parts` (and replacing it by them). -/
def splitTextNode (query text : List Char) : DomForest :=
  splitLoop query text (toLowerStr query) (toLowerStr text) (text.length + 1) 0

mutual
/-- `highlightMatches` on a single walked node: a text leaf whose
lower-cased text contains the lower-cased query is replaced by its
interleaved fragments; any other node keeps its place with its children
rewritten. -/
def highlightNode (query : List Char) : DomNode → DomForest
  | .text s =>
    if containsSub (toLowerStr query) (toLowerStr s) then splitTextNode query s
    else .cons (.text s) .nil
  | .elem tag cls cs => .cons (.elem tag cls (highlightForest query cs)) .nil
/-- See `highlightNode`. -/
def highlightForest (query : List Char) : DomForest → DomForest
  | .nil => .nil
  | .cons n ns => forestAppend (highlightNode query n) (highlightForest query ns)
end

/-- `MarkdownPreviewComponent.highlightMatches` over the whole walked tree
(`document.createTreeWalker` with `SHOW_TEXT` enumerates exactly the text
leaves, in document order). -/
def highlightMatches (query : List Char) (root : DomForest) : DomForest :=
  highlightForest query root

/-- A small rendered tree for the witness. -/
def sampleForest : DomForest :=
  .cons (.elem "p".toList "".toList (.cons (.text "abc".toList) .nil))
    (.cons (.text "b".toList) .nil)

/-! ### Facts about the occurrence scan -/

lemma occIn_some {q s : List Char} {n : Nat} (h : occIn q s = some n) :
    n + q.length ≤ s.length ∧ (s.drop n).take q.length = q := by
  induction s generalizing n with
  | nil =>
    unfold occIn at h
    split at h
    · rename_i hp
      have hq : q = [] := List.prefix_nil.mp (List.isPrefixOf_iff_prefix.mp hp)
      cases h
      simp [hq]
    · cases h
  | cons c rest ih =>
    unfold occIn at h
    split at h
    · rename_i hp
      cases h
      have hpre := List.isPrefixOf_iff_prefix.mp hp
      refine ⟨by simpa using hpre.length_le, ?_⟩
      simpa using (List.prefix_iff_eq_take.mp hpre).symm
    · rename_i hp
      rcases Option.map_eq_some'.mp h with ⟨m, hm, rfl⟩
      rcases ih hm with ⟨h1, h2⟩
      refine ⟨by simp only [List.length_cons]; omega, ?_⟩
      simpa [List.drop_succ_cons] using h2

lemma occFrom_some {q t : List Char} {i j : Nat} (h : occFrom q t i = some j) :
    i ≤ j ∧ j + q.length ≤ t.length ∧ (t.drop j).take q.length = q := by
  unfold occFrom at h
  split at h
  · cases h
  · rename_i hle
    have hle' : i ≤ t.length := Nat.le_of_not_lt hle
    rcases Option.map_eq_some'.mp h with ⟨n, hn, rfl⟩
    rcases occIn_some hn with ⟨h1, h2⟩
    rw [List.length_drop] at h1
    refine ⟨Nat.le_add_left i n, by omega, ?_⟩
    rw [List.drop_drop] at h2
    simpa [Nat.add_comm] using h2

/-! ### Facts about the literal exec loop -/

lemma execLoopLit_spec (q st c : List Char) (hq : q ≠ []) : ∀ fuel i,
    (∀ r ∈ execLoopLit q st c fuel i,
        i ≤ r.start ∧ r.endPos = r.start + q.length ∧ r.endPos ≤ st.length ∧
        (st.drop r.start).take q.length = q ∧ r.text = strSub c r.start r.endPos) ∧
    List.Pairwise (fun a b => a.endPos ≤ b.start ∧ a.start < b.start)
      (execLoopLit q st c fuel i) := by
  have hql : 0 < q.length := List.length_pos.mpr hq
  intro fuel
  induction fuel with
  | zero => intro i; simp [execLoopLit]
  | succ fuel ih =>
    intro i
    unfold execLoopLit
    cases h : occFrom q st i with
    | none => simp
    | some j =>
      rcases occFrom_some h with ⟨hij, hlen, hsl⟩
      have hne : ¬ (j + q.length = j) := by omega
      dsimp only
      rw [if_neg hne]
      rcases ih (j + q.length) with ⟨ihmem, ihpw⟩
      constructor
      · intro r hr
        rcases List.mem_cons.mp hr with hr | hr
        · subst hr
          exact ⟨hij, rfl, hlen, hsl, rfl⟩
        · rcases ihmem r hr with ⟨h1, h2, h3, h4, h5⟩
          exact ⟨by omega, h2, h3, h4, h5⟩
      · refine List.pairwise_cons.mpr ⟨?_, ihpw⟩
        intro b hb
        rcases ihmem b hb with ⟨h1, _, _, _, _⟩
        refine ⟨h1, ?_⟩
        show j < b.start
        omega

lemma execLoopLit_eq_simpleSearchLoop (q st c : List Char) (hq : q ≠ []) :
    ∀ fuel i, execLoopLit q st c fuel i = simpleSearchLoop q st c fuel i := by
  have hql : 0 < q.length := List.length_pos.mpr hq
  intro fuel
  induction fuel with
  | zero => intro i; rfl
  | succ fuel ih =>
    intro i
    unfold execLoopLit simpleSearchLoop
    cases h : occFrom q st i with
    | none => rfl
    | some j =>
      have hne : ¬ (j + q.length = j) := by omega
      dsimp only
      rw [if_neg hne, ih]

lemma execSearchLit_eq_simpleSearch (q st c : List Char) (hq : q ≠ []) :
    execSearchLit q st c = simpleSearch q st c :=
  execLoopLit_eq_simpleSearchLoop q st c hq (st.length + 1) 0

lemma simpleSearchLoop_nil (q c : List Char) (hq : q ≠ []) :
    ∀ fuel i, simpleSearchLoop q [] c fuel i = [] := by
  intro fuel i
  cases fuel with
  | zero => rfl
  | succ fuel =>
    unfold simpleSearchLoop
    have : occFrom q [] i = none := by
      unfold occFrom
      split
      · rfl
      · rename_i hle
        have hi : i = 0 := by simp at hle; omega
        subst hi
        simp [occIn, List.isPrefixOf_iff_prefix, List.prefix_nil, hq]
    rw [this]

lemma toLowerStr_strSub (s : List Char) (a b : Nat) :
    toLowerStr (strSub s a b) = strSub (toLowerStr s) a b := by
  simp [toLowerStr, strSub, List.map_take, List.map_drop]

lemma simpleSearch_spans_valid (q c : List Char) (hq : q ≠ []) :
    (∀ r ∈ simpleSearch (toLowerStr q) (toLowerStr c) c,
        toLowerStr (strSub c r.start r.endPos) = toLowerStr q ∧
        r.start < r.endPos ∧ r.endPos ≤ c.length) ∧
    List.Pairwise (fun a b => a.endPos ≤ b.start ∧ a.start < b.start)
      (simpleSearch (toLowerStr q) (toLowerStr c) c) := by
  have hq' : toLowerStr q ≠ [] := fun h => hq (List.map_eq_nil_iff.mp h)
  have hlen : (toLowerStr c).length = c.length := by simp [toLowerStr]
  have hql : 0 < (toLowerStr q).length := List.length_pos.mpr hq'
  have heq := execSearchLit_eq_simpleSearch (toLowerStr q) (toLowerStr c) c hq'
  unfold execSearchLit at heq
  rcases execLoopLit_spec (toLowerStr q) (toLowerStr c) c hq'
    ((toLowerStr c).length + 1) 0 with ⟨hmem, hpw⟩
  rw [heq] at hmem hpw
  refine ⟨?_, hpw⟩
  intro r hr
  rcases hmem r hr with ⟨_, h2, h3, h4, _⟩
  rw [hlen] at h3
  have hsub : r.endPos - r.start = (toLowerStr q).length := by omega
  refine ⟨?_, by omega, h3⟩
  rw [toLowerStr_strSub]
  unfold strSub
  rw [hsub, h4]

lemma searchInContent_default_eq (q c : List Char) (regexCompiles : List Char → Bool)
    (regexEngine : List Char → List Char → List Char → List SearchResult)
    (hq : q ≠ []) (hc : c ≠ []) :
    searchInContent defaultSearchOptions regexCompiles regexEngine q c =
      simpleSearch (toLowerStr q) (toLowerStr c) c := by
  have hq' : toLowerStr q ≠ [] := fun h => hq (List.map_eq_nil_iff.mp h)
  rw [← execSearchLit_eq_simpleSearch _ _ _ hq']
  simp [searchInContent, defaultSearchOptions, hq, hc]

/-- C1: with the default options every span produced by the search
(`searchInContent`, and equally its `simpleSearch` fallback on the same
case-folded inputs) matches the query up to case folding, lies inside the
text with `start < end`, and the spans are pairwise non-overlapping and
strictly ascending by `start`. -/
theorem searchInContent_default_spans_valid (q c : List Char)
    (regexCompiles : List Char → Bool)
    (regexEngine : List Char → List Char → List Char → List SearchResult)
    (hq : q ≠ []) :
    (∀ r ∈ searchInContent defaultSearchOptions regexCompiles regexEngine q c,
        toLowerStr (strSub c r.start r.endPos) = toLowerStr q ∧
        r.start < r.endPos ∧ r.endPos ≤ c.length) ∧
    List.Pairwise (fun a b => a.endPos ≤ b.start ∧ a.start < b.start)
      (searchInContent defaultSearchOptions regexCompiles regexEngine q c) ∧
    (∀ r ∈ simpleSearch (toLowerStr q) (toLowerStr c) c,
        toLowerStr (strSub c r.start r.endPos) = toLowerStr q ∧
        r.start < r.endPos ∧ r.endPos ≤ c.length) ∧
    List.Pairwise (fun a b => a.endPos ≤ b.start ∧ a.start < b.start)
      (simpleSearch (toLowerStr q) (toLowerStr c) c) := by
  refine ⟨?_, ?_, (simpleSearch_spans_valid q c hq).1, (simpleSearch_spans_valid q c hq).2⟩
  all_goals by_cases hc : c = []
  · subst hc
    simp [searchInContent]
  · rw [searchInContent_default_eq q c regexCompiles regexEngine hq hc]
    exact (simpleSearch_spans_valid q c hq).1
  · subst hc
    simp [searchInContent]
  · rw [searchInContent_default_eq q c regexCompiles regexEngine hq hc]
    exact (simpleSearch_spans_valid q c hq).2

/-- Witness for `searchInContent_default_spans_valid` on the README's
running example. -/
theorem searchInContent_default_spans_valid_witness :
    ("at".toList ≠ ([] : List Char)) ∧
    List.Pairwise (fun a b => a.endPos ≤ b.start ∧ a.start < b.start)
      (searchInContent defaultSearchOptions noRegexCompile noRegexEngine "at".toList
        "The cat sat on the mat".toList) :=
  ⟨by decide,
    (searchInContent_default_spans_valid "at".toList "The cat sat on the mat".toList
      noRegexCompile noRegexEngine (by decide)).2.1⟩

/-- C5: with `useRegex = false` the finder agrees with plain literal
substring search for every query (metacharacters are not special, since the
query is escaped before compilation), and with `useRegex = true` and a query
that fails to compile it falls back to exactly the same literal substring
search, with no error reaching the caller (the model is total). -/
theorem searchInContent_literal_equiv (opts : SearchOptions)
    (regexCompiles : List Char → Bool)
    (regexEngine : List Char → List Char → List Char → List SearchResult)
    (q c : List Char) :
    (opts.useRegex = false → opts.wholeWord = false →
      searchInContent opts regexCompiles regexEngine q c =
        literalSubstringSearch opts q c) ∧
    (opts.useRegex = true →
      regexCompiles (if opts.caseSensitive then q else toLowerStr q) = false →
      searchInContent opts regexCompiles regexEngine q c =
        literalSubstringSearch opts q c) := by
  constructor
  · intro hrx hww
    by_cases hguard : q = [] ∨ c = []
    · simp [searchInContent, literalSubstringSearch, hguard]
    · push_neg at hguard
      have hq' : (if opts.caseSensitive then q else toLowerStr q) ≠ [] := by
        split
        · exact hguard.1
        · exact fun h => hguard.1 (List.map_eq_nil_iff.mp h)
      have key := execSearchLit_eq_simpleSearch
        (if opts.caseSensitive then q else toLowerStr q)
        (if opts.caseSensitive then c else toLowerStr c) c hq'
      simp [searchInContent, literalSubstringSearch, hrx, hww,
        hguard.1, hguard.2, key]
  · intro hrx hfail
    by_cases hguard : q = [] ∨ c = []
    · simp [searchInContent, literalSubstringSearch, hguard]
    · push_neg at hguard
      simp [searchInContent, literalSubstringSearch, hrx, hfail,
        hguard.1, hguard.2]

/-- Witness for `searchInContent_literal_equiv`: a query containing the
metacharacter `.` with `useRegex = false`, and the same query under
`useRegex = true` with a failing compile. -/
theorem searchInContent_literal_equiv_witness :
    (searchInContent defaultSearchOptions noRegexCompile noRegexEngine
        "a.c".toList "xa.cx".toList =
      literalSubstringSearch defaultSearchOptions "a.c".toList "xa.cx".toList) ∧
    (searchInContent { caseSensitive := false, wholeWord := false, useRegex := true }
        noRegexCompile noRegexEngine "a.c".toList "xa.cx".toList =
      literalSubstringSearch
        { caseSensitive := false, wholeWord := false, useRegex := true }
        "a.c".toList "xa.cx".toList) :=
  ⟨(searchInContent_literal_equiv defaultSearchOptions noRegexCompile noRegexEngine
      "a.c".toList "xa.cx".toList).1 rfl rfl,
    (searchInContent_literal_equiv
      { caseSensitive := false, wholeWord := false, useRegex := true }
      noRegexCompile noRegexEngine "a.c".toList "xa.cx".toList).2 rfl rfl⟩

/-- C8 counterexample: on `"The cat sat on the mat"` with query `"at"` and
default options the finder's second span is `(9, 11)` (the `"at"` of
`"sat"`, whose `a` sits at offset 9), not the `(10, 12)` stated by the
spec's example. -/
theorem cat_mat_example_cex :
    ¬ ((searchInContent defaultSearchOptions noRegexCompile noRegexEngine
          "at".toList "The cat sat on the mat".toList).map (fun r => (r.start, r.endPos)) =
        [(5, 7), (10, 12), (20, 22)]) := by decide

/-- C8 amended: the three matches are at offsets `(5, 7)`, `(9, 11)` and
`(20, 22)`, and with `wholeWord = true` the same search yields no match. -/
theorem cat_mat_example_amended :
    (searchInContent defaultSearchOptions noRegexCompile noRegexEngine
        "at".toList "The cat sat on the mat".toList).map (fun r => (r.start, r.endPos)) =
      [(5, 7), (9, 11), (20, 22)] ∧
    searchInContent { defaultSearchOptions with wholeWord := true } noRegexCompile
      noRegexEngine "at".toList "The cat sat on the mat".toList = [] := by decide

/-- C9: `closeSearch` keeps `searchMode` and resets every other field of the
state; the chosen mode therefore survives a close followed by a reopen. -/
theorem closeSearch_preserves_mode (s : SearchState) :
    (closeSearch s).searchMode = s.searchMode ∧
    (closeSearch s).query = [] ∧
    (closeSearch s).isActive = false ∧
    (closeSearch s).results = [] ∧
    (closeSearch s).currentIndex = 0 ∧
    (closeSearch s).totalMatches = 0 ∧
    (openSearch (closeSearch s)).searchMode = s.searchMode :=
  ⟨rfl, rfl, rfl, rfl, rfl, rfl, rfl⟩

/-- C10: `getCurrentResult` is total (it is a plain function into `Option`):
it returns `none` whenever the cursor is 0, the result list is empty, or
the cursor exceeds the list length, and otherwise the element at position
`currentIndex - 1`. -/
theorem getCurrentResult_total_spec (s : SearchState) :
    ((s.currentIndex = 0 ∨ s.results = [] ∨ s.results.length < s.currentIndex) →
      getCurrentResult s = none) ∧
    (∀ (h1 : s.currentIndex ≠ 0) (h2 : s.currentIndex ≤ s.results.length),
      getCurrentResult s = some (s.results.get ⟨s.currentIndex - 1, by omega⟩)) := by
  constructor
  · intro h
    unfold getCurrentResult
    rcases h with h | h | h
    · rw [if_pos (Or.inl h)]
    · rw [if_pos (Or.inr (by simp [h]))]
    · by_cases h0 : s.currentIndex = 0
      · rw [if_pos (Or.inl h0)]
      · split
        · rfl
        · exact List.get?_eq_none.mpr (by omega)
  · intro h1 h2
    unfold getCurrentResult
    rw [if_neg (by omega), List.get?_eq_get (by omega)]

/-- Witness for `getCurrentResult_total_spec` at `sampleActiveState`. -/
theorem getCurrentResult_total_spec_witness :
    getCurrentResult sampleActiveState = some sampleResult :=
  ((getCurrentResult_total_spec sampleActiveState).2 (by decide) (by decide)).trans (by decide)

/-- C3 counterexample: `performSearch` does not consult `isActive`, so on an
inactive state with a non-empty query and a matching target it produces a
non-empty result list while `isActive` stays `false`, violating the
invariant "`isActive = false` implies `results = []`". -/
theorem performSearch_inactive_breaks_inv :
    stateInv inactiveQueryState ∧
    ¬ stateInv (performSearch defaultSearchOptions noRegexCompile noRegexEngine
        [{ type := TargetKind.editor, content := "a".toList }] inactiveQueryState) := by
  constructor
  · decide
  · decide

/-- C3 amended: every store operation — `performSearch` included, with no
activity hypothesis — preserves the two invariants "`totalMatches` equals
the length of `results`" and "`currentIndex` is 0 or in
`[1, totalMatches]`" (for `performSearch` they are in fact established in
the output state outright); every operation except `performSearch` also
preserves "inactive implies empty"; `performSearch` preserves the full
invariant provided the state is active. -/
theorem searchStore_ops_preserve_inv (s : SearchState) (h : stateInv s) :
    stateInv (openSearch s) ∧
    stateInv (closeSearch s) ∧
    (∀ q, stateInv (updateSearchQuery q s)) ∧
    (∀ q, stateInv (debouncedQueryUpdate q s)) ∧
    (∀ m, stateInv (setSearchMode m s)) ∧
    stateInv (navigateNext s) ∧
    stateInv (navigatePrevious s) ∧
    (∀ opts regexCompiles regexEngine targets,
      (performSearch opts regexCompiles regexEngine targets s).totalMatches =
        (performSearch opts regexCompiles regexEngine targets s).results.length ∧
      ((performSearch opts regexCompiles regexEngine targets s).currentIndex = 0 ∨
        (1 ≤ (performSearch opts regexCompiles regexEngine targets s).currentIndex ∧
          (performSearch opts regexCompiles regexEngine targets s).currentIndex ≤
            (performSearch opts regexCompiles regexEngine targets s).totalMatches)) ∧
      (s.isActive = true →
        stateInv (performSearch opts regexCompiles regexEngine targets s))) := by
  obtain ⟨h1, h2, h3⟩ := h
  refine ⟨⟨h1, h2, by simp [openSearch]⟩,
    ⟨rfl, Or.inl rfl, fun _ => ⟨rfl, rfl⟩⟩,
    fun q => ⟨h1, Or.inl rfl, fun hIA => ⟨(h3 hIA).1, rfl⟩⟩,
    fun q => ⟨h1, h2, fun hIA => h3 hIA⟩,
    fun m => ⟨h1, h2, fun hIA => h3 hIA⟩,
    ?_, ?_, ?_⟩
  · unfold navigateNext
    split
    · exact ⟨h1, h2, h3⟩
    · rename_i htm
      refine ⟨h1, Or.inr ?_, fun hIA => ?_⟩
      · dsimp only
        split
        · omega
        · omega
      · exfalso
        have := (h3 hIA).1
        rw [this] at h1
        simp at h1
        exact htm h1
  · unfold navigatePrevious
    split
    · exact ⟨h1, h2, h3⟩
    · rename_i htm
      refine ⟨h1, Or.inr ?_, fun hIA => ?_⟩
      · dsimp only
        split
        · omega
        · omega
      · exfalso
        have := (h3 hIA).1
        rw [this] at h1
        simp at h1
        exact htm h1
  · intro opts regexCompiles regexEngine targets
    unfold performSearch
    split
    · exact ⟨rfl, Or.inl rfl,
        fun _ => ⟨rfl, Or.inl rfl, fun _ => ⟨rfl, rfl⟩⟩⟩
    · have hci : ∀ len : Nat, (if 0 < len then 1 else 0) = 0 ∨
          (1 ≤ (if 0 < len then 1 else 0) ∧ (if 0 < len then 1 else 0) ≤ len) := by
        intro len
        split
        · rename_i hlen
          exact Or.inr ⟨le_refl 1, hlen⟩
        · exact Or.inl rfl
      refine ⟨rfl, ?_, fun hact => ⟨rfl, ?_, fun hIA => ?_⟩⟩
      · exact hci _
      · exact hci _
      · exfalso
        have hfalse : s.isActive = false := hIA
        rw [hact] at hfalse
        cases hfalse

/-- Witness for `searchStore_ops_preserve_inv`. -/
theorem searchStore_ops_preserve_inv_witness :
    stateInv sampleActiveState ∧
    stateInv (navigateNext sampleActiveState) ∧
    stateInv (performSearch defaultSearchOptions noRegexCompile noRegexEngine
      [{ type := TargetKind.editor, content := "a".toList }] sampleActiveState) :=
  ⟨by decide,
    (searchStore_ops_preserve_inv sampleActiveState (by decide)).2.2.2.2.2.1,
    ((searchStore_ops_preserve_inv sampleActiveState (by decide)).2.2.2.2.2.2.2
      defaultSearchOptions noRegexCompile noRegexEngine
      [{ type := TargetKind.editor, content := "a".toList }]).2.2 rfl⟩

/-- C4 counterexample: when the debounced channel settles, the constructor's
subscription (`debouncedQueryUpdate`) only writes the query field — the
state still has no results — whereas actually re-running the matcher
(`performSearch`) on the same state and a matching target would record one
match.  Settling therefore does not re-trigger matching. -/
theorem debounce_settle_no_search_cex :
    (debouncedQueryUpdate "a".toList pendingQueryState).results = [] ∧
    (debouncedQueryUpdate "a".toList pendingQueryState).totalMatches = 0 ∧
    (performSearch defaultSearchOptions noRegexCompile noRegexEngine
        [{ type := TargetKind.editor, content := "a".toList }]
        pendingQueryState).totalMatches = 1 := by decide

/-- C4 amended: `updateSearchQuery` synchronously sets the query and resets
`currentIndex` to 0 leaving every other field unchanged, and the debounced
subscription, however many values the channel emits, only ever rewrites the
query field — it never re-runs the search (results, cursor, totals, active
flag and mode are untouched). -/
theorem updateSearchQuery_sync_and_debounce_frame (s : SearchState)
    (q : List Char) (qs : List (List Char)) :
    (updateSearchQuery q s).query = q ∧
    (updateSearchQuery q s).currentIndex = 0 ∧
    (updateSearchQuery q s).isActive = s.isActive ∧
    (updateSearchQuery q s).results = s.results ∧
    (updateSearchQuery q s).totalMatches = s.totalMatches ∧
    (updateSearchQuery q s).searchMode = s.searchMode ∧
    (qs.foldl (fun st q2 => debouncedQueryUpdate q2 st) s).results = s.results ∧
    (qs.foldl (fun st q2 => debouncedQueryUpdate q2 st) s).currentIndex = s.currentIndex ∧
    (qs.foldl (fun st q2 => debouncedQueryUpdate q2 st) s).totalMatches = s.totalMatches ∧
    (qs.foldl (fun st q2 => debouncedQueryUpdate q2 st) s).isActive = s.isActive ∧
    (qs.foldl (fun st q2 => debouncedQueryUpdate q2 st) s).searchMode = s.searchMode := by
  have key : ∀ (qs : List (List Char)) (s : SearchState),
      (qs.foldl (fun st q2 => debouncedQueryUpdate q2 st) s).results = s.results ∧
      (qs.foldl (fun st q2 => debouncedQueryUpdate q2 st) s).currentIndex = s.currentIndex ∧
      (qs.foldl (fun st q2 => debouncedQueryUpdate q2 st) s).totalMatches = s.totalMatches ∧
      (qs.foldl (fun st q2 => debouncedQueryUpdate q2 st) s).isActive = s.isActive ∧
      (qs.foldl (fun st q2 => debouncedQueryUpdate q2 st) s).searchMode = s.searchMode := by
    intro qs
    induction qs with
    | nil => intro s; exact ⟨rfl, rfl, rfl, rfl, rfl⟩
    | cons a l ih =>
      intro s
      rcases ih (debouncedQueryUpdate a s) with ⟨k1, k2, k3, k4, k5⟩
      exact ⟨k1, k2, k3, k4, k5⟩
  rcases key qs s with ⟨k1, k2, k3, k4, k5⟩
  exact ⟨rfl, rfl, rfl, rfl, rfl, rfl, k1, k2, k3, k4, k5⟩

/-- C6: an external scroll event arriving with the guard clear performs
exactly one mirrored write and sets the guard; any scroll event on either
pane arriving before the animation-frame clears the guard — in particular
the echo event caused by the mirrored write itself — performs no mirrored
write and changes no pane other than the one that scrolled.  Stated for
events originating on either pane. -/
theorem scrollSync_guard_single_write (s : SyncState) (top : ℚ)
    (hguard : s.isSyncing = false) :
    ((editorScrollEvent s top).2 = 1 ∧
     (editorScrollEvent s top).1.isSyncing = true ∧
     (∀ t2, (previewScrollEvent (editorScrollEvent s top).1 t2).2 = 0 ∧
        (previewScrollEvent (editorScrollEvent s top).1 t2).1.editorElement =
          (editorScrollEvent s top).1.editorElement) ∧
     (∀ t2, (editorScrollEvent (editorScrollEvent s top).1 t2).2 = 0 ∧
        (editorScrollEvent (editorScrollEvent s top).1 t2).1.previewElement =
          (editorScrollEvent s top).1.previewElement)) ∧
    ((previewScrollEvent s top).2 = 1 ∧
     (previewScrollEvent s top).1.isSyncing = true ∧
     (∀ t2, (editorScrollEvent (previewScrollEvent s top).1 t2).2 = 0 ∧
        (editorScrollEvent (previewScrollEvent s top).1 t2).1.previewElement =
          (previewScrollEvent s top).1.previewElement)) := by
  constructor
  · refine ⟨?_, ?_, ?_, ?_⟩
    · simp [editorScrollEvent, syncFromEditor, hguard]
    · simp [editorScrollEvent, syncFromEditor, hguard]
    · intro t2
      constructor
      · simp [editorScrollEvent, previewScrollEvent, syncFromEditor, syncFromPreview, hguard]
      · simp [editorScrollEvent, previewScrollEvent, syncFromEditor, syncFromPreview, hguard]
    · intro t2
      constructor
      · simp [editorScrollEvent, syncFromEditor, hguard]
      · simp [editorScrollEvent, syncFromEditor, hguard]
  · refine ⟨?_, ?_, ?_⟩
    · simp [previewScrollEvent, syncFromPreview, hguard]
    · simp [previewScrollEvent, syncFromPreview, hguard]
    · intro t2
      constructor
      · simp [editorScrollEvent, previewScrollEvent, syncFromEditor, syncFromPreview, hguard]
      · simp [editorScrollEvent, previewScrollEvent, syncFromEditor, syncFromPreview, hguard]

/-- Witness for `scrollSync_guard_single_write`. -/
theorem scrollSync_guard_single_write_witness :
    (editorScrollEvent sampleSyncState 50).2 = 1 ∧
    (previewScrollEvent (editorScrollEvent sampleSyncState 50).1 7).2 = 0 :=
  ⟨(scrollSync_guard_single_write sampleSyncState 50 rfl).1.1,
    ((scrollSync_guard_single_write sampleSyncState 50 rfl).1.2.2.1 7).1⟩

/-- C7 counterexample: after one scroll event bringing the editor to
percentage 1, the preview's computed percentage is 0 — off by 1, far beyond
any floating-point tolerance — because `calculateScrollPercentage` divides
by `max 1 0 = 1` while `applyScrollPercentage` multiplies by `max 0 0 = 0`. -/
theorem scrollSync_percentage_cex :
    calculateScrollPercentage (editorScrollEvent stuckPreviewSync 100).1.previewElement ≠
      calculateScrollPercentage
        { scrollTop := (100 : ℚ), scrollHeight := 200, clientHeight := 100 } := by
  have h1 : (editorScrollEvent stuckPreviewSync 100).1.previewElement =
      { scrollTop := 0, scrollHeight := 100, clientHeight := 100 } := by
    simp [stuckPreviewSync, editorScrollEvent, syncFromEditor, applyScrollPercentage]
  have e1 : calculateScrollPercentage
      { scrollTop := (0 : ℚ), scrollHeight := 100, clientHeight := 100 } = 0 := by
    simp [calculateScrollPercentage]
  have e2 : calculateScrollPercentage
      { scrollTop := (100 : ℚ), scrollHeight := 200, clientHeight := 100 } = 1 := by
    unfold calculateScrollPercentage
    rw [show ((200 : ℚ) - 100) = 100 by norm_num,
      max_eq_right (by norm_num : (1 : ℚ) ≤ 100)]
    norm_num
  rw [h1, e1, e2]
  norm_num

/-- C7 amended: the percentages agree (exactly, over `ℚ`) provided the
target pane is actually scrollable by at least one pixel
(`contentExtent − viewportExtent ≥ 1`; DOM extents are whole pixels, so
this only excludes the `contentExtent = viewportExtent` pane of the
counterexample).  Stated for events originating on either pane. -/
theorem scrollSync_percentage_amended (s : SyncState) (top : ℚ)
    (hguard : s.isSyncing = false)
    (hA : s.editorElement.clientHeight ≤ s.editorElement.scrollHeight)
    (hB : s.previewElement.clientHeight ≤ s.previewElement.scrollHeight)
    (htop0 : 0 ≤ top)
    (htopA : top ≤ s.editorElement.scrollHeight - s.editorElement.clientHeight)
    (htopB : top ≤ s.previewElement.scrollHeight - s.previewElement.clientHeight) :
    (1 ≤ s.previewElement.scrollHeight - s.previewElement.clientHeight →
      calculateScrollPercentage (editorScrollEvent s top).1.previewElement =
        calculateScrollPercentage
          { scrollTop := top, scrollHeight := s.editorElement.scrollHeight,
            clientHeight := s.editorElement.clientHeight }) ∧
    (1 ≤ s.editorElement.scrollHeight - s.editorElement.clientHeight →
      calculateScrollPercentage (previewScrollEvent s top).1.editorElement =
        calculateScrollPercentage
          { scrollTop := top, scrollHeight := s.previewElement.scrollHeight,
            clientHeight := s.previewElement.clientHeight }) := by
  constructor
  · intro h1
    have hg0 : (0 : ℚ) ≤ s.previewElement.scrollHeight - s.previewElement.clientHeight :=
      le_trans zero_le_one h1
    have hgne : s.previewElement.scrollHeight - s.previewElement.clientHeight ≠ 0 :=
      ne_of_gt (lt_of_lt_of_le zero_lt_one h1)
    simp only [editorScrollEvent, syncFromEditor, hguard, Bool.false_eq_true, if_false,
      applyScrollPercentage, calculateScrollPercentage]
    rw [max_eq_right hg0, max_eq_right h1, mul_div_cancel_right₀ _ hgne]
  · intro h1
    have hg0 : (0 : ℚ) ≤ s.editorElement.scrollHeight - s.editorElement.clientHeight :=
      le_trans zero_le_one h1
    have hgne : s.editorElement.scrollHeight - s.editorElement.clientHeight ≠ 0 :=
      ne_of_gt (lt_of_lt_of_le zero_lt_one h1)
    simp only [previewScrollEvent, syncFromPreview, hguard, Bool.false_eq_true, if_false,
      applyScrollPercentage, calculateScrollPercentage]
    rw [max_eq_right hg0, max_eq_right h1, mul_div_cancel_right₀ _ hgne]

/-- Witness for `scrollSync_percentage_amended`. -/
theorem scrollSync_percentage_amended_witness :
    calculateScrollPercentage (editorScrollEvent sampleSyncState 50).1.previewElement =
      calculateScrollPercentage
        { scrollTop := (50 : ℚ), scrollHeight := 200, clientHeight := 100 } :=
  (scrollSync_percentage_amended sampleSyncState 50 rfl (by norm_num [sampleSyncState])
    (by norm_num [sampleSyncState]) (by norm_num) (by norm_num [sampleSyncState])
    (by norm_num [sampleSyncState])).1 (by norm_num [sampleSyncState])

/-! ### Round-trip lemmas for the buffer highlighter -/

lemma escapeHtmlChar_plain {c : Char} (h : isHtmlPlain c = true) :
    escapeHtmlChar c = [c] := by
  unfold isHtmlPlain at h
  simp only [Bool.not_eq_true', Bool.or_eq_false_iff, beq_eq_false_iff_ne, ne_eq] at h
  unfold escapeHtmlChar
  rw [if_neg h.1.1, if_neg h.1.2, if_neg h.2]

lemma escapeHtml_plain {s : List Char} (h : s.all isHtmlPlain = true) :
    escapeHtml s = s := by
  induction s with
  | nil => rfl
  | cons c cs ih =>
    rw [List.all_cons, Bool.and_eq_true] at h
    unfold escapeHtml at *
    rw [List.flatMap_cons, escapeHtmlChar_plain h.1, ih h.2]
    rfl

lemma isHtmlPlain_noTag {c : Char} (h : isHtmlPlain c = true) :
    ¬ c = '<' ∧ ¬ c = '>' := by
  unfold isHtmlPlain at h
  simp only [Bool.not_eq_true', Bool.or_eq_false_iff, beq_eq_false_iff_ne, ne_eq] at h
  exact ⟨h.1.2, h.2⟩

lemma stripTagsAux_nil (flag : Bool) : stripTagsAux flag [] = [] := by
  cases flag <;> rfl

lemma stripTagsAux_false_cons (c : Char) (l : List Char) :
    stripTagsAux false (c :: l) =
      if c = '<' then stripTagsAux true l else c :: stripTagsAux false l := rfl

lemma stripTagsAux_true_cons (c : Char) (l : List Char) :
    stripTagsAux true (c :: l) =
      if c = '>' then stripTagsAux false l else stripTagsAux true l := rfl

lemma stripTagsAux_false_append {a : List Char} (b : List Char)
    (h : a.all isHtmlPlain = true) :
    stripTagsAux false (a ++ b) = a ++ stripTagsAux false b := by
  induction a with
  | nil => rfl
  | cons c cs ih =>
    rw [List.all_cons, Bool.and_eq_true] at h
    rw [List.cons_append, stripTagsAux_false_cons, if_neg (isHtmlPlain_noTag h.1).1,
      ih h.2, List.cons_append]

lemma stripTagsAux_true_through {a : List Char} (b : List Char)
    (h : a.all (fun c => !(c == '>')) = true) :
    stripTagsAux true (a ++ b) = stripTagsAux true b := by
  induction a with
  | nil => rfl
  | cons c cs ih =>
    rw [List.all_cons, Bool.and_eq_true] at h
    rw [List.cons_append, stripTagsAux_true_cons, if_neg (by simpa using h.1), ih h.2]

lemma stripTags_openTag (cls : List Char)
    (h : cls.all (fun c => !(c == '>')) = true) (b : List Char) :
    stripTagsAux false (highlightOpenTag cls ++ b) = stripTagsAux false b := by
  have hshape : highlightOpenTag cls ++ b =
      '<' :: ("span class=\"".toList ++ (cls ++ ('\"' :: ('>' :: b)))) := by
    unfold highlightOpenTag
    rw [show "<span class=\"".toList = '<' :: "span class=\"".toList from rfl,
      show "\">".toList = ['\"', '>'] from rfl]
    simp [List.append_assoc]
  rw [hshape]
  show stripTagsAux true ("span class=\"".toList ++ (cls ++ ('\"' :: ('>' :: b)))) =
    stripTagsAux false b
  rw [stripTagsAux_true_through _ (by decide), stripTagsAux_true_through _ h]
  show stripTagsAux true ('>' :: b) = stripTagsAux false b
  rfl

lemma stripTags_closeTag (b : List Char) :
    stripTagsAux false (highlightCloseTag ++ b) = stripTagsAux false b := by
  rw [show highlightCloseTag = ['<', '/', 's', 'p', 'a', 'n', '>'] from rfl]
  rfl

lemma all_take {p : Char → Bool} {l : List Char} (n : Nat) (h : l.all p = true) :
    (l.take n).all p = true := by
  rw [List.all_eq_true] at *
  exact fun x hx => h x (List.mem_of_mem_take hx)

lemma all_drop {p : Char → Bool} {l : List Char} (n : Nat) (h : l.all p = true) :
    (l.drop n).all p = true := by
  rw [List.all_eq_true] at *
  exact fun x hx => h x (List.mem_of_mem_drop hx)

lemma all_strSub {p : Char → Bool} {l : List Char} (a b : Nat) (h : l.all p = true) :
    (strSub l a b).all p = true :=
  all_take _ (all_drop _ h)

lemma stripTags_plain {s : List Char} (h : s.all isHtmlPlain = true) :
    stripTags s = s := by
  have := stripTagsAux_false_append (a := s) [] h
  simpa [stripTags, stripTagsAux_nil] using this

lemma strSub_eq_take_drop (l : List Char) (a b : Nat) :
    strSub l a b = (l.take b).drop a := by
  unfold strSub
  rw [List.drop_take]

lemma strSub_append_drop (t : List Char) (a b : Nat) (hab : a ≤ b) :
    strSub t a b ++ t.drop b = t.drop a := by
  unfold strSub
  conv_lhs => rw [show b = a + (b - a) by omega]
  rw [Nat.add_sub_cancel_left]
  exact List.drop_take_append_drop t a (b - a)

lemma insertByStartDesc_append {m : EditorMatch} {l : List EditorMatch}
    (h : ∀ x ∈ l, ¬ x.start ≤ m.start) : insertByStartDesc m l = l ++ [m] := by
  induction l with
  | nil => rfl
  | cons x xs ih =>
    unfold insertByStartDesc
    rw [if_neg (h x (List.mem_cons_self x xs)), ih (fun y hy => h y (List.mem_cons_of_mem _ hy))]
    rfl

lemma sortByStartDesc_of_ascending {ms : List EditorMatch}
    (h : List.Pairwise (fun a b => a.start < b.start) ms) :
    sortByStartDesc ms = ms.reverse := by
  induction ms with
  | nil => rfl
  | cons m rest ih =>
    rcases List.pairwise_cons.mp h with ⟨hhead, htail⟩
    show insertByStartDesc m (rest.foldr insertByStartDesc []) = (m :: rest).reverse
    rw [show rest.foldr insertByStartDesc [] = sortByStartDesc rest from rfl, ih htail,
      insertByStartDesc_append (fun x hx => by
        have := hhead x (List.mem_reverse.mp hx)
        omega)]
    simp

lemma spliceHighlights_strip (content : List Char)
    (hclean : content.all isHtmlPlain = true) :
    ∀ (dms : List EditorMatch) (cm total idx : Nat) (acc : List Char),
      List.Pairwise (fun a b => b.endPos ≤ a.start) dms →
      (∀ m ∈ dms, m.start < m.endPos ∧ m.endPos ≤ content.length) →
      (∀ m ∈ dms, acc.take m.endPos = content.take m.endPos) →
      stripTags acc = content →
      stripTags (spliceHighlights cm total dms idx acc) = content := by
  intro dms
  induction dms with
  | nil =>
    intro cm total idx acc _ _ _ hstrip
    exact hstrip
  | cons m rest ih =>
    intro cm total idx acc hpw hbnd hpre hstrip
    rcases List.pairwise_cons.mp hpw with ⟨hhead, htailpw⟩
    have hm := hbnd m (List.mem_cons_self m rest)
    have hse : m.start < m.endPos := hm.1
    have hle : m.endPos ≤ content.length := hm.2
    have hacc_e : acc.take m.endPos = content.take m.endPos :=
      hpre m (List.mem_cons_self m rest)
    have hlenacc : m.endPos ≤ acc.length := by
      have hlen := congrArg List.length hacc_e
      simp only [List.length_take] at hlen
      omega
    have before_eq : acc.take m.start = content.take m.start := by
      have h1 : (acc.take m.endPos).take m.start = (content.take m.endPos).take m.start := by
        rw [hacc_e]
      simpa [List.take_take, Nat.min_eq_left (Nat.le_of_lt hse)] using h1
    have sub_eq : strSub acc m.start m.endPos = strSub content m.start m.endPos := by
      rw [strSub_eq_take_drop, strSub_eq_take_drop, hacc_e]
    have cleanBefore : (content.take m.start).all isHtmlPlain = true := all_take _ hclean
    have cleanSub : (strSub content m.start m.endPos).all isHtmlPlain = true :=
      all_strSub _ _ hclean
    have cleanTakeE : (content.take m.endPos).all isHtmlPlain = true := all_take _ hclean
    have hclsall :
        (if total - idx = cm then "search-highlight current".toList
         else "search-highlight".toList).all (fun c => !(c == '>')) = true := by
      split
      · decide
      · decide
    have hdrop : stripTagsAux false (acc.drop m.endPos) = content.drop m.endPos := by
      have hsplit : stripTagsAux false (acc.take m.endPos ++ acc.drop m.endPos) =
          content.take m.endPos ++ stripTagsAux false (acc.drop m.endPos) := by
        rw [hacc_e]
        exact stripTagsAux_false_append _ cleanTakeE
      rw [List.take_append_drop] at hsplit
      have hstrip' : stripTagsAux false acc = content := hstrip
      have hcombined : content.take m.endPos ++ stripTagsAux false (acc.drop m.endPos) =
          content.take m.endPos ++ content.drop m.endPos := by
        rw [← hsplit, hstrip', List.take_append_drop]
      exact List.append_cancel_left hcombined
    have hstrip2 : stripTags
        (acc.take m.start ++
          highlightOpenTag
            (if total - idx = cm then "search-highlight current".toList
             else "search-highlight".toList) ++
          escapeHtml (strSub acc m.start m.endPos) ++ highlightCloseTag ++
          acc.drop m.endPos) = content := by
      unfold stripTags
      rw [before_eq, sub_eq, escapeHtml_plain cleanSub]
      simp only [List.append_assoc]
      rw [stripTagsAux_false_append _ cleanBefore, stripTags_openTag _ hclsall,
        stripTagsAux_false_append _ cleanSub, stripTags_closeTag, hdrop,
        strSub_append_drop content m.start m.endPos (Nat.le_of_lt hse)]
      exact List.take_append_drop m.start content
    -- the invariant survives for the remaining (earlier) matches
    have hpre2 : ∀ m2 ∈ rest,
        (acc.take m.start ++
          highlightOpenTag
            (if total - idx = cm then "search-highlight current".toList
             else "search-highlight".toList) ++
          escapeHtml (strSub acc m.start m.endPos) ++ highlightCloseTag ++
          acc.drop m.endPos).take m2.endPos = content.take m2.endPos := by
      intro m2 hm2
      have he2 : m2.endPos ≤ m.start := hhead m2 hm2
      have hlenb : (acc.take m.start).length = m.start := by
        simp only [List.length_take]
        omega
      simp only [List.append_assoc]
      rw [List.take_append_of_le_length (by omega), List.take_take,
        Nat.min_eq_left he2]
      exact hpre m2 (List.mem_cons_of_mem _ hm2)
    show stripTags
        (spliceHighlights cm total rest (idx + 1)
          (acc.take m.start ++
            highlightOpenTag
              (if total - idx = cm then "search-highlight current".toList
               else "search-highlight".toList) ++
            escapeHtml (strSub acc m.start m.endPos) ++ highlightCloseTag ++
            acc.drop m.endPos)) = content
    exact ih cm total (idx + 1) _ htailpw
      (fun m2 hm2 => hbnd m2 (List.mem_cons_of_mem _ hm2)) hpre2 hstrip2

/-! ### Round-trip lemmas for the tree highlighter -/

theorem textContentForest_append : ∀ a b : DomForest,
    textContentForest (forestAppend a b) = textContentForest a ++ textContentForest b
  | .nil, b => rfl
  | .cons n ns, b => by
    rw [show forestAppend (.cons n ns) b = .cons n (forestAppend ns b) from rfl,
      show textContentForest (.cons n (forestAppend ns b)) =
        textContent n ++ textContentForest (forestAppend ns b) from rfl,
      textContentForest_append ns b,
      show textContentForest (.cons n ns) = textContent n ++ textContentForest ns from rfl,
      List.append_assoc]

lemma splitLoop_concat (query text lowerQuery lowerText : List Char)
    (hq : query ≠ [])
    (hlq : lowerQuery.length = query.length)
    (hlt : lowerText.length = text.length) :
    ∀ fuel lastIndex, text.length < fuel + lastIndex →
      textContentForest (splitLoop query text lowerQuery lowerText fuel lastIndex) =
        text.drop lastIndex := by
  have hql : 0 < query.length := List.length_pos.mpr hq
  intro fuel
  induction fuel with
  | zero =>
    intro lastIndex h
    simp only [splitLoop, textContentForest]
    exact (List.drop_eq_nil_of_le (by omega)).symm
  | succ fuel ih =>
    intro lastIndex h
    unfold splitLoop
    cases hocc : occFrom lowerQuery lowerText lastIndex with
    | none =>
      dsimp only
      split
      · exact List.append_nil _
      · rename_i hge
        exact (List.drop_eq_nil_of_le (by omega)).symm
    | some j =>
      rcases occFrom_some hocc with ⟨hij, hjlen, _⟩
      rw [hlq, hlt] at hjlen
      dsimp only
      rw [textContentForest_append]
      have hpre : textContentForest
          (if lastIndex < j then DomForest.cons (.text (strSub text lastIndex j)) .nil
           else .nil) = strSub text lastIndex j := by
        split
        · exact List.append_nil _
        · rename_i hnlt
          have hj : j = lastIndex := by omega
          subst hj
          simp only [strSub, Nat.sub_self, List.take_zero]
          rfl
      rw [hpre]
      have ih2 := ih (j + query.length) (by omega)
      rw [show textContentForest
            (DomForest.cons
              (.elem "mark".toList "search-highlight".toList
                (.cons (.text (strSub text j (j + query.length))) .nil))
              (splitLoop query text lowerQuery lowerText fuel (j + query.length))) =
          (strSub text j (j + query.length) ++ []) ++
            textContentForest (splitLoop query text lowerQuery lowerText fuel
              (j + query.length)) from rfl,
        ih2, List.append_nil,
        strSub_append_drop text j (j + query.length) (Nat.le_add_right _ _),
        strSub_append_drop text lastIndex j hij]

mutual
theorem textContent_highlightNode (query : List Char) (hq : query ≠ []) :
    ∀ n : DomNode, textContentForest (highlightNode query n) = textContent n
  | .text s => by
    rw [show highlightNode query (.text s) =
      (if containsSub (toLowerStr query) (toLowerStr s) then splitTextNode query s
       else .cons (.text s) .nil) from rfl]
    split
    · unfold splitTextNode
      rw [splitLoop_concat query s (toLowerStr query) (toLowerStr s) hq
        (by simp [toLowerStr]) (by simp [toLowerStr]) (s.length + 1) 0 (by omega)]
      rfl
    · exact List.append_nil _
  | .elem tag cls cs => by
    rw [show highlightNode query (.elem tag cls cs) =
        .cons (.elem tag cls (highlightForest query cs)) .nil from rfl,
      show textContentForest
          (DomForest.cons (.elem tag cls (highlightForest query cs)) .nil) =
        textContentForest (highlightForest query cs) ++ [] from rfl,
      textContentForest_highlightForest query hq cs, List.append_nil]
    rfl
theorem textContentForest_highlightForest (query : List Char) (hq : query ≠ []) :
    ∀ f : DomForest, textContentForest (highlightForest query f) = textContentForest f
  | .nil => rfl
  | .cons n ns => by
    rw [show highlightForest query (.cons n ns) =
        forestAppend (highlightNode query n) (highlightForest query ns) from rfl,
      textContentForest_append, textContent_highlightNode query hq n,
      textContentForest_highlightForest query hq ns]
    rfl
end

/-- C2 counterexample: the component HTML-escapes each matched segment, so
for the buffer `"&"` with the single match `(0, 1)` the overlay with its
markers stripped is `"&amp;"`, not the original `"&"`. -/
theorem backdrop_strip_roundtrip_cex :
    ¬ (stripTags (updateBackdropHighlights "&".toList "&".toList
        [{ start := 0, endPos := 1 }] 1) = "&".toList) := by decide

/-- C2 amended: for a non-empty query and a non-empty set of in-bounds,
non-overlapping, ascending matches over a buffer containing none of `&`,
`<`, `>` (the characters `escapeHtml` rewrites), the backdrop overlay with
its markers stripped is exactly the buffer; and the tree highlighter
preserves the concatenated text content of every tree, unconditionally in
the tree. -/
theorem highlight_roundtrip_amended (content searchQuery : List Char)
    (searchMatches : List EditorMatch) (currentMatch : Nat)
    (hq : searchQuery ≠ []) (hms : searchMatches ≠ [])
    (hpw : List.Pairwise (fun a b => a.endPos ≤ b.start) searchMatches)
    (hbb : ∀ m ∈ searchMatches, m.start < m.endPos ∧ m.endPos ≤ content.length)
    (hclean : content.all isHtmlPlain = true) :
    stripTags (updateBackdropHighlights searchQuery content searchMatches currentMatch) =
      content ∧
    ∀ root : DomForest,
      textContentForest (highlightMatches searchQuery root) = textContentForest root := by
  constructor
  · unfold updateBackdropHighlights
    rw [if_neg (by simp [hq, hms])]
    have hasc : List.Pairwise (fun a b : EditorMatch => a.start < b.start) searchMatches := by
      refine List.Pairwise.imp_of_mem (fun {a b} ha hb hr => ?_) hpw
      have := (hbb a ha).1
      omega
    rw [sortByStartDesc_of_ascending hasc]
    refine spliceHighlights_strip content hclean _ currentMatch searchMatches.length 0
      content ?_ ?_ ?_ ?_
    · exact List.pairwise_reverse.mpr hpw
    · intro m hm
      exact hbb m (List.mem_reverse.mp hm)
    · intro m hm
      rfl
    · exact stripTags_plain hclean
  · intro root
    exact textContentForest_highlightForest searchQuery hq root

/-- Witness for `highlight_roundtrip_amended`. -/
theorem highlight_roundtrip_amended_witness :
    stripTags (updateBackdropHighlights "b".toList "abc".toList
        [{ start := 1, endPos := 2 }] 1) = "abc".toList ∧
    textContentForest (highlightMatches "b".toList sampleForest) =
      textContentForest sampleForest :=
  ⟨(highlight_roundtrip_amended "abc".toList "b".toList [{ start := 1, endPos := 2 }] 1
      (by decide) (by decide) (by decide) (by decide) (by decide)).1,
    (highlight_roundtrip_amended "abc".toList "b".toList [{ start := 1, endPos := 2 }] 1
      (by decide) (by decide) (by decide) (by decide) (by decide)).2 sampleForest⟩
